import Mathlib

/-!
Verification of the generation-orchestration layer in
`src/services/gemini.ts` (ingredient extractor, constraint compilers,
recipe generator response handling, recipe illustrator).

The service responses are modelled by the fields the code reads
(`response.text`, `response.candidates[..].content.parts[..].inlineData`);
`JSON.parse` is embedded as an executable parser for the JSON grammar,
and JavaScript string operations (`split`, `trim`, `encodeURIComponent`,
object spread) are embedded by functions of the same behaviour.
-/

namespace PureChef

/-- JSON values as produced by `JSON.parse`.  Numbers keep their source
lexeme: no claim inspects numeric values, and this avoids modelling
IEEE-754 conversion. -/
inductive Json where
  | null : Json
  | bool (b : Bool) : Json
  | num (lexeme : String) : Json
  | str (s : String) : Json
  | arr (elems : List Json) : Json
  | obj (fields : List (String × Json)) : Json

/-- JSON insignificant whitespace (space, tab, line feed, carriage return). -/
def isJsonWs (c : Char) : Bool :=
  c = ' ' || c = '\t' || c = '\n' || c = '\r'

/-- Drop leading JSON whitespace. -/
def skipWs : List Char → List Char
  | [] => []
  | c :: rest => if isJsonWs c then skipWs rest else c :: rest

/-- Decimal digit test. -/
def isDigitChar (c : Char) : Bool := '0' ≤ c && c ≤ '9'

/-- Hexadecimal digit test (for `\u` escapes). -/
def isHexChar (c : Char) : Bool :=
  isDigitChar c || ('a' ≤ c && c ≤ 'f') || ('A' ≤ c && c ≤ 'F')

/-- Value of a hexadecimal digit. -/
def hexVal (c : Char) : Nat :=
  if isDigitChar c then c.toNat - '0'.toNat
  else if 'a' ≤ c && c ≤ 'f' then c.toNat - 'a'.toNat + 10
  else c.toNat - 'A'.toNat + 10

/-- Lex the optional fraction and exponent parts of a JSON number; a bare
`.` not followed by a digit is a syntax error. -/
def lexFracExp (acc : List Char) (cs : List Char) :
    Option (List Char × List Char) :=
  let (acc1, cs1) :=
    match cs with
    | '.' :: d :: r =>
      if isDigitChar d then
        (acc ++ '.' :: d :: r.takeWhile isDigitChar, r.dropWhile isDigitChar)
      else (acc, cs)
    | _ => (acc, cs)
  if cs1 == cs && cs ≠ [] && cs.head? = some '.' then none
  else
    match cs1 with
    | e :: r =>
      if e = 'e' || e = 'E' then
        let (sgn, r1) :=
          match r with
          | s :: r1 => if s = '+' || s = '-' then ([s], r1) else (([] : List Char), r)
          | [] => (([] : List Char), r)
        match r1 with
        | d :: r2 =>
          if isDigitChar d then
            some (acc1 ++ e :: sgn ++ d :: r2.takeWhile isDigitChar,
                  r2.dropWhile isDigitChar)
          else none
        | [] => none
      else some (acc1, cs1)
    | [] => some (acc1, cs1)

/-- Lex a JSON number (`-? int frac? exp?`), returning its lexeme and the
remaining input. -/
def lexNumber (cs : List Char) : Option (List Char × List Char) :=
  let (sign, cs1) :=
    match cs with
    | '-' :: r => ([('-' : Char)], r)
    | _ => (([] : List Char), cs)
  match cs1 with
  | [] => none
  | c :: r =>
    if c = '0' then
      lexFracExp (sign ++ [c]) r
    else if isDigitChar c then
      let ds := r.takeWhile isDigitChar
      lexFracExp (sign ++ c :: ds) (r.dropWhile isDigitChar)
    else none

/-- Lex a JSON string body (the opening quote already consumed), with fuel. -/
def lexString (fuel : Nat) (cs : List Char) (acc : List Char) :
    Option (String × List Char) :=
  match fuel with
  | 0 => none
  | fuel + 1 =>
    match cs with
    | [] => none
    | '"' :: rest => some (String.mk acc.reverse, rest)
    | '\\' :: e :: rest =>
      if e = '"' then lexString fuel rest ('"' :: acc)
      else if e = '\\' then lexString fuel rest ('\\' :: acc)
      else if e = '/' then lexString fuel rest ('/' :: acc)
      else if e = 'b' then lexString fuel rest ('\x08' :: acc)
      else if e = 'f' then lexString fuel rest ('\x0c' :: acc)
      else if e = 'n' then lexString fuel rest ('\n' :: acc)
      else if e = 'r' then lexString fuel rest ('\r' :: acc)
      else if e = 't' then lexString fuel rest ('\t' :: acc)
      else if e = 'u' then
        match rest with
        | a :: b :: c :: d :: rest2 =>
          if isHexChar a && isHexChar b && isHexChar c && isHexChar d then
            let n := ((hexVal a * 16 + hexVal b) * 16 + hexVal c) * 16 + hexVal d
            lexString fuel rest2 (Char.ofNat n :: acc)
          else none
        | _ => none
      else none
    | c :: rest =>
      if c.toNat < 0x20 then none else lexString fuel rest (c :: acc)

/-- Insert a field into an object's field list the way `JSON.parse` and the
object spread treat a repeated key: replace the value in place if the key is
present, otherwise append at the end. -/
def insertField : List (String × Json) → String × Json → List (String × Json)
  | [], kv => [kv]
  | (k, v) :: rest, kv =>
    if k = kv.1 then kv :: rest else (k, v) :: insertField rest kv

mutual

/-- Parse one JSON value from the input (leading whitespace already
skipped), with fuel. -/
def parseValue (fuel : Nat) (cs : List Char) : Option (Json × List Char) :=
  match fuel with
  | 0 => none
  | fuel + 1 =>
    match cs with
    | 'n' :: 'u' :: 'l' :: 'l' :: rest => some (.null, rest)
    | 't' :: 'r' :: 'u' :: 'e' :: rest => some (.bool true, rest)
    | 'f' :: 'a' :: 'l' :: 's' :: 'e' :: rest => some (.bool false, rest)
    | '"' :: rest =>
      match lexString fuel rest [] with
      | some (s, rest1) => some (.str s, rest1)
      | none => none
    | '[' :: rest =>
      match skipWs rest with
      | ']' :: rest1 => some (.arr [], rest1)
      | rest1 => parseItems fuel rest1 []
    | '\x7b' :: rest =>
      match skipWs rest with
      | '\x7d' :: rest1 => some (.obj [], rest1)
      | rest1 => parseFields fuel rest1 []
    | c :: _ =>
      if c = '-' || isDigitChar c then
        match lexNumber cs with
        | some (lexeme, rest) => some (.num (String.mk lexeme), rest)
        | none => none
      else none
    | [] => none

/-- Parse the comma-separated items of a non-empty JSON array. -/
def parseItems (fuel : Nat) (cs : List Char) (acc : List Json) :
    Option (Json × List Char) :=
  match fuel with
  | 0 => none
  | fuel + 1 =>
    match parseValue fuel (skipWs cs) with
    | none => none
    | some (v, rest) =>
      match skipWs rest with
      | ',' :: rest1 => parseItems fuel rest1 (v :: acc)
      | ']' :: rest1 => some (.arr (v :: acc).reverse, rest1)
      | _ => none

/-- Parse the comma-separated fields of a non-empty JSON object. -/
def parseFields (fuel : Nat) (cs : List Char) (acc : List (String × Json)) :
    Option (Json × List Char) :=
  match fuel with
  | 0 => none
  | fuel + 1 =>
    match skipWs cs with
    | '"' :: rest =>
      match lexString fuel rest [] with
      | none => none
      | some (k, rest1) =>
        match skipWs rest1 with
        | ':' :: rest2 =>
          match parseValue fuel (skipWs rest2) with
          | none => none
          | some (v, rest3) =>
            match skipWs rest3 with
            | ',' :: rest4 => parseFields fuel rest4 (insertField acc (k, v))
            | '\x7d' :: rest4 => some (.obj (insertField acc (k, v)), rest4)
            | _ => none
        | _ => none
    | _ => none

end

/-- Embedding of JavaScript `JSON.parse`: `some` on success, `none` where
`JSON.parse` throws a `SyntaxError`.  The fuel `2 * length + 2` dominates
the recursion depth of any parse of the input. -/
def jsonParse (s : String) : Option Json :=
  match parseValue (2 * s.length + 2) (skipWs s.data) with
  | some (v, rest) => if skipWs rest = [] then some v else none
  | none => none

/-- First-match lookup in an object's field list. -/
def lookupField : List (String × Json) → String → Option Json
  | [], _ => none
  | (k, v) :: rest, key => if k = key then some v else lookupField rest key

/-- Field access on a JSON value (objects only). -/
def getField (j : Json) (key : String) : Option Json :=
  match j with
  | .obj fields => lookupField fields key
  | _ => none

/-- The inline-data part of a service response candidate: the code reads
only its `data` payload. -/
structure InlineData where
  data : String

/-- A content part of a service response candidate; `inlineData` is absent
on text-only parts. -/
structure Part where
  inlineData : Option InlineData

/-- The `content` of a response candidate; its `parts` list may be absent. -/
structure Content where
  parts : Option (List Part)

/-- A response candidate; its `content` may be absent. -/
structure Candidate where
  content : Option Content

/-- The slice of the SDK response the code reads: the aggregated `text`
accessor (absent when the response carries no text) and the candidate
list. -/
structure GenerateContentResponse where
  text : Option String := none
  candidates : Option (List Candidate) := none

/-- Failures of the generator's response handling: `JSON.parse` throwing on
unparseable text, or `.map` throwing when the parsed value is not an
array.  Both reject the async call; the spec's taxonomy files them under
`GenerationFailure`. -/
inductive GenerationFailure where
  | parseFailure : GenerationFailure
  | mapFailure : GenerationFailure

/-- Embedding of the JavaScript object spread `{...r, id: "recipe-<idx>"}`
applied to a parsed element (src/services/gemini.ts:170).  Objects keep
their own fields with `id` replaced in place or appended; arrays and
strings spread their index properties; other primitives contribute no
properties. -/
def withId (r : Json) (idx : Nat) : Json :=
  let idv := Json.str ("recipe-" ++ toString idx)
  match r with
  | .obj fields => .obj (insertField fields ("id", idv))
  | .arr elems =>
    .obj (insertField (elems.enum.map fun p => (toString p.1, p.2)) ("id", idv))
  | .str s =>
    .obj (insertField
      (s.data.enum.map fun p => (toString p.1, Json.str (String.mk [p.2])))
      ("id", idv))
  | _ => .obj [("id", idv)]

/-- Response handling of `generateRecipes` (src/services/gemini.ts:169-170):
`JSON.parse(response.text || "[]")` followed by
`recipes.map((r, idx) => ({...r, id: recipe-idx}))`.  An absent or empty
`text` is defaulted to `"[]"` by the `||`; a parse error or a non-array
parse result throws. -/
def generateRecipes (response : GenerateContentResponse) :
    Except GenerationFailure (List Json) :=
  let effective :=
    match response.text with
    | none => "[]"
    | some t => if t = "" then "[]" else t
  match jsonParse effective with
  | none => .error .parseFailure
  | some (.arr elems) => .ok (elems.enum.map fun p => withId p.2 p.1)
  | some _ => .error .mapFailure

/-- The whitespace set of JavaScript `String.prototype.trim` (WhiteSpace
and LineTerminator code points). -/
def isJsWhitespace (c : Char) : Bool :=
  c = ' ' || c = '\t' || c = '\n' || c = '\r' || c = '\x0b' || c = '\x0c' ||
  c.toNat = 0xA0 || c.toNat = 0xFEFF || c.toNat = 0x1680 ||
  (0x2000 ≤ c.toNat && c.toNat ≤ 0x200A) ||
  c.toNat = 0x2028 || c.toNat = 0x2029 || c.toNat = 0x202F ||
  c.toNat = 0x205F || c.toNat = 0x3000

/-- Embedding of JavaScript `String.prototype.trim`. -/
def jsTrim (s : String) : String :=
  String.mk (((s.data.dropWhile isJsWhitespace).reverse.dropWhile
    isJsWhitespace).reverse)

/-- Split a character list at every comma; like JavaScript
`String.prototype.split(',')`, the empty input yields one empty segment
and adjacent commas yield empty segments. -/
def splitComma : List Char → List (List Char)
  | [] => [[]]
  | c :: rest =>
    if c = ',' then [] :: splitComma rest
    else
      match splitComma rest with
      | s :: ss => (c :: s) :: ss
      | [] => [[c]]

/-- Embedding of JavaScript `text.split(',')`. -/
def jsSplitComma (s : String) : List String :=
  (splitComma s.data).map String.mk

/-- Response handling of `detectIngredientsFromImage`
(src/services/gemini.ts:23-24): `(response.text || "")` split on commas,
each segment trimmed, empty segments dropped. -/
def detectIngredientsFromImage (response : GenerateContentResponse) :
    List String :=
  let text := response.text.getD ""
  ((jsSplitComma text).map jsTrim).filter fun i => i.length > 0

/-- The dietary-mode switch of `generateRecipes`
(src/services/gemini.ts:35-48).  The mode is a string at runtime; the
three special cases are matched and everything else, including
`"STANDARD"`, takes the `default` branch. -/
def compileDietaryConstraint (mode : String) : String :=
  if mode = "HIGH_PROTEIN" then
    "CRITICAL: Every recipe must be high in protein (focus on meat, eggs, beans, or dairy provided)."
  else if mode = "KETO" then
    "CRITICAL: Every recipe must be Ketogenic (high fat, low carb). Avoid sugars and high-starch items."
  else if mode = "UNDER_500_CAL" then
    "CRITICAL: Every recipe must be under 500 calories per serving."
  else
    "Provide balanced and delicious recipes."

/-- The emotional-style switch of `generateRecipes`
(src/services/gemini.ts:50-70).  The variable starts as `""` and no
`default` case exists, so an unmatched style yields the empty string. -/
def compileStyleConstraint (emotion : String) : String :=
  if emotion = "COMFORT" then
    "STYLE: Soul-warming, familiar, and hearty. Focus on textures that feel like a hug."
  else if emotion = "LIGHT" then
    "STYLE: Crisp, vibrant, and clean. Focus on fresh flavors, citrus, and raw or lightly cooked elements."
  else if emotion = "ENERGIZED" then
    "STYLE: Power-packed and balanced. Focus on high-nutrient density to provide lasting energy."
  else if emotion = "COZY" then
    "STYLE: Slow-cooked vibes, warm spices (cinnamon, cumin, etc.), and soothing warmth."
  else if emotion = "LAZY" then
    "STYLE: Minimum effort, maximum flavor. One-pot or 5-minute prep style. Very few steps."
  else if emotion = "IMPRESS" then
    "STYLE: Sophisticated and gourmet. Focus on elegant presentation and unique flavor pairings to wow a guest."
  else ""

/-- The preference record nested in a taste profile, shaped by the fields
the code reads (`spiceLevel`, `texture`, `flavorBias`). -/
structure TastePreferences where
  spiceLevel : String
  texture : List String
  flavorBias : List String

/-- A taste-memory profile, shaped by the fields the code reads
(`lovedRecipes`, `dislikedRecipes`, `preferences`). -/
structure TasteProfile where
  lovedRecipes : List String
  dislikedRecipes : List String
  preferences : TastePreferences

/-- Embedding of JavaScript `Array.prototype.join` with a fixed
separator. -/
def joinSep (sep : String) : List String → String
  | [] => ""
  | [a] => a
  | a :: b :: rest => a ++ sep ++ joinSep sep (b :: rest)

/-- The `tasteContext` template of `generateRecipes`
(src/services/gemini.ts:72-81): empty when the profile is absent,
otherwise the personal-palate block interpolating the profile's lists
joined with `", "`. -/
def compilePersonalizationBlock (profile : Option TasteProfile) : String :=
  match profile with
  | none => ""
  | some p =>
    "\n  USER PERSONAL PALATE (Taste Memory):\n  - Loved flavor patterns: " ++
    joinSep ", " p.lovedRecipes ++
    "\n  - Avoided patterns: " ++
    joinSep ", " p.dislikedRecipes ++
    "\n  - Preferred Spice: " ++
    p.preferences.spiceLevel ++
    "\n  - Preferred Textures: " ++
    joinSep ", " p.preferences.texture ++
    "\n  - Flavor bias: " ++
    joinSep ", " p.preferences.flavorBias ++
    "\n  \n  ADJUSTMENT: Prioritize these preferences in the 3 generated options. If the user loves a specific style, reflect that in the \"Chef\x27s Choice\" option.\n  "

/-- Characters `encodeURIComponent` leaves unescaped. -/
def isUnescapedURIChar (c : Char) : Bool :=
  ('A' ≤ c && c ≤ 'Z') || ('a' ≤ c && c ≤ 'z') || ('0' ≤ c && c ≤ '9') ||
  c = '-' || c = '_' || c = '.' || c = '!' || c = '~' || c = '*' ||
  c.toNat = 0x27 || c = '(' || c = ')'

/-- Uppercase hexadecimal digit. -/
def hexDigitChar (n : Nat) : Char :=
  if n < 10 then Char.ofNat ('0'.toNat + n) else Char.ofNat ('A'.toNat + n - 10)

/-- UTF-8 bytes of a code point. -/
def utf8Bytes (c : Char) : List Nat :=
  let n := c.toNat
  if n < 0x80 then [n]
  else if n < 0x800 then
    [0xC0 + n / 64, 0x80 + n % 64]
  else if n < 0x10000 then
    [0xE0 + n / 4096, 0x80 + n / 64 % 64, 0x80 + n % 64]
  else
    [0xF0 + n / 262144, 0x80 + n / 4096 % 64, 0x80 + n / 64 % 64, 0x80 + n % 64]

/-- Embedding of JavaScript `encodeURIComponent`: unescaped characters pass
through, every other character is percent-encoded byte by byte. -/
def encodeURIComponent (s : String) : String :=
  String.mk (s.data.flatMap fun c =>
    if isUnescapedURIChar c then [c]
    else (utf8Bytes c).flatMap fun b => ['%', hexDigitChar (b / 16), hexDigitChar (b % 16)])

/-- The parts list `response.candidates?.[0]?.content?.parts || []` of
`generateRecipeImage` (src/services/gemini.ts:187): only the FIRST
candidate is consulted, and every absent link in the optional chain
yields the empty list. -/
def firstCandidateParts (response : GenerateContentResponse) : List Part :=
  match response.candidates with
  | none => []
  | some cs =>
    match cs.head? with
    | none => []
    | some c =>
      match c.content with
      | none => []
      | some ct => ct.parts.getD []

/-- The scan of the `for` loop in `generateRecipeImage`: the payload of the
first part whose `inlineData` is present. -/
def firstInlineData : List Part → Option String
  | [] => none
  | p :: rest =>
    match p.inlineData with
    | some d => some d.data
    | none => firstInlineData rest

/-- Response handling of `generateRecipeImage`
(src/services/gemini.ts:187-193): the first inline payload of the first
candidate's parts wrapped as a PNG data URI, else the picsum placeholder
URL seeded by the URL-encoded recipe title. -/
def generateRecipeImage (recipeTitle : String)
    (response : GenerateContentResponse) : String :=
  match firstInlineData (firstCandidateParts response) with
  | some d => "data:image/png;base64," ++ d
  | none =>
    "https://picsum.photos/seed/" ++ encodeURIComponent recipeTitle ++ "/600/600"

/-- Modelled from the spec (claim C10): a scan over ALL candidates' parts
in order for the first inline payload, the reading under which the claim
quantifies "among the response's candidate outputs".  Defined only to
contrast with the source's first-candidate-only scan. -/
def firstInlineDataAllCandidates (response : GenerateContentResponse) :
    Option String :=
  firstInlineData ((response.candidates.getD []).flatMap fun c =>
    (c.content.bind Content.parts).getD [])

/-! ## Helper lemmas -/

theorem lookupField_insertField_self (l : List (String × Json)) (k : String)
    (v : Json) : lookupField (insertField l (k, v)) k = some v := by
  induction l with
  | nil => simp [insertField, lookupField]
  | cons kv rest ih =>
    obtain ⟨k1, v1⟩ := kv
    by_cases hk : k1 = k
    · subst hk
      simp [insertField, lookupField]
    · simp [insertField, lookupField, hk, ih]

theorem lookupField_insertField_ne (l : List (String × Json)) (k k1 : String)
    (v : Json) (h : k1 ≠ k) :
    lookupField (insertField l (k, v)) k1 = lookupField l k1 := by
  induction l with
  | nil => simp [insertField, lookupField, Ne.symm h]
  | cons kv rest ih =>
    obtain ⟨k2, v2⟩ := kv
    by_cases hk : k2 = k
    · subst hk
      simp [insertField, lookupField, Ne.symm h]
    · simp [insertField, lookupField, hk, ih]

theorem getField_withId_id (r : Json) (idx : Nat) :
    getField (withId r idx) "id" = some (.str ("recipe-" ++ toString idx)) := by
  cases r <;> simp [withId, getField, lookupField, lookupField_insertField_self]

theorem getField_withId_of_ne (fields : List (String × Json)) (idx : Nat)
    (k : String) (h : k ≠ "id") :
    getField (withId (.obj fields) idx) k = getField (.obj fields) k := by
  simp [withId, getField, lookupField_insertField_ne _ _ _ _ h]

theorem head?_dropWhile_false (p : α → Bool) (l : List α) (c : α)
    (h : (l.dropWhile p).head? = some c) : p c = false := by
  induction l with
  | nil => simp [List.dropWhile] at h
  | cons a rest ih =>
    rw [List.dropWhile_cons] at h
    by_cases ha : p a
    · exact ih (by simpa [ha] using h)
    · simp [ha] at h
      subst h
      simpa using ha

theorem getLast?_dropWhile (p : α → Bool) (l : List α)
    (h : l.dropWhile p ≠ []) : (l.dropWhile p).getLast? = l.getLast? := by
  induction l with
  | nil => simp [List.dropWhile] at h
  | cons a rest ih =>
    rw [List.dropWhile_cons]
    by_cases ha : p a
    · have hr : rest.dropWhile p ≠ [] := by
        rw [List.dropWhile_cons] at h
        simpa [ha] using h
      have hrest : rest ≠ [] := by
        intro he
        subst he
        simp [List.dropWhile] at hr
      obtain ⟨b, t, rfl⟩ := List.exists_cons_of_ne_nil hrest
      simp [ha, ih hr, List.getLast?_cons_cons]
    · simp [ha]

theorem joinSep_substring (sep : String) (l : List String) (s : String)
    (h : s ∈ l) : ∃ x y, joinSep sep l = x ++ s ++ y := by
  induction l with
  | nil => simp at h
  | cons a rest ih =>
    match rest with
    | [] =>
      simp at h
      subst h
      exact ⟨"", "", by simp [joinSep, String.empty_append, String.append_empty]⟩
    | b :: t =>
      rcases List.mem_cons.mp h with rfl | hmem
      · exact ⟨"", sep ++ joinSep sep (b :: t), by
          simp [joinSep, String.empty_append, String.append_assoc]⟩
      · obtain ⟨x, y, hxy⟩ := ih hmem
        exact ⟨a ++ sep ++ x, y, by
          simp [joinSep, hxy, String.append_assoc]⟩

theorem infix_append_left (u : String) {v s : String}
    (h : ∃ x y, v = x ++ s ++ y) : ∃ x y, u ++ v = x ++ s ++ y := by
  obtain ⟨x, y, rfl⟩ := h
  exact ⟨u ++ x, y, by simp [String.append_assoc]⟩

theorem infix_append_right {v s : String} (h : ∃ x y, v = x ++ s ++ y)
    (w : String) : ∃ x y, v ++ w = x ++ s ++ y := by
  obtain ⟨x, y, rfl⟩ := h
  exact ⟨x, y ++ w, by simp [String.append_assoc]⟩

theorem firstInlineData_of_first (l : List Part) (i : Nat) (p : Part)
    (d : String) (hi : l[i]? = some p) (hd : p.inlineData = some ⟨d⟩)
    (hbefore : ∀ j q, j < i → l[j]? = some q → q.inlineData = none) :
    firstInlineData l = some d := by
  induction l generalizing i with
  | nil => simp at hi
  | cons a rest ih =>
    match i with
    | 0 =>
      simp at hi
      subst hi
      simp [firstInlineData, hd]
    | i + 1 =>
      have ha : a.inlineData = none :=
        hbefore 0 a (Nat.succ_pos i) (by simp)
      simp at hi
      rw [show firstInlineData (a :: rest) = firstInlineData rest by
        simp [firstInlineData, ha]]
      exact ih i hi fun j q hj hq =>
        hbefore (j + 1) q (Nat.succ_lt_succ hj) (by simpa using hq)

theorem jsTrim_ends (u : String) :
    jsTrim u = "" ∨
    (Option.all (fun c => !isJsWhitespace c) (jsTrim u).data.head? = true ∧
      Option.all (fun c => !isJsWhitespace c) (jsTrim u).data.getLast? = true) := by
  by_cases hq :
      (u.data.dropWhile isJsWhitespace).reverse.dropWhile isJsWhitespace = []
  · left
    simp [jsTrim, hq]
  · right
    have hdata : (jsTrim u).data =
        ((u.data.dropWhile isJsWhitespace).reverse.dropWhile
          isJsWhitespace).reverse := rfl
    obtain ⟨c, q', hq'⟩ := List.exists_cons_of_ne_nil hq
    have hm : (u.data.dropWhile isJsWhitespace) ≠ [] := by
      intro hm0
      rw [hm0] at hq
      simp [List.dropWhile] at hq
    obtain ⟨c0, m', hm'⟩ := List.exists_cons_of_ne_nil hm
    constructor
    · rw [hdata, List.head?_reverse,
        getLast?_dropWhile isJsWhitespace _ hq, List.getLast?_reverse]
      have : (u.data.dropWhile isJsWhitespace).head? = some c0 := by
        rw [hm']
        rfl
      rw [this]
      have := head?_dropWhile_false isJsWhitespace u.data c0 this
      simp [this]
    · rw [hdata, List.getLast?_reverse]
      have hc : ((u.data.dropWhile isJsWhitespace).reverse.dropWhile
          isJsWhitespace).head? = some c := by
        rw [hq']
        rfl
      rw [hc]
      have := head?_dropWhile_false isJsWhitespace
        (u.data.dropWhile isJsWhitespace).reverse c hc
      simp [this]

/-! ## Claims -/

/-- C1, counterexample: a response whose text is the empty string does NOT
make `generateRecipes` fail — `response.text || "[]"` coerces the empty
text to `"[]"`, so the call returns an empty recipe list, contradicting
the claim that empty text yields a `GenerationFailure`. -/
theorem claim1_counterexample :
    generateRecipes { text := some "" } = .ok [] ∧
    generateRecipes { text := some "" } ≠ .error .parseFailure ∧
    generateRecipes { text := some "" } ≠ .error .mapFailure := by
  refine ⟨rfl, ?_, ?_⟩ <;> intro hc <;>
    exact Except.noConfusion
      ((show generateRecipes { text := some "" } = Except.ok [] from rfl).symm.trans hc)

/-- C1, amended: for every service response whose text is empty or absent,
`generateRecipes` coerces the text to `"[]"` and returns the empty recipe
list, not a `GenerationFailure`. -/
theorem claim1_amended (resp : GenerateContentResponse)
    (h : resp.text = none ∨ resp.text = some "") :
    generateRecipes resp = .ok [] := by
  obtain ⟨t, cand⟩ := resp
  rcases h with h | h
  · replace h : t = none := h
    subst h
    rfl
  · replace h : t = some "" := h
    subst h
    rfl

/-- C1, witness: the amended claim at the concrete empty-text response. -/
theorem claim1_witness :
    (({ text := some "" } : GenerateContentResponse).text = none ∨
      ({ text := some "" } : GenerateContentResponse).text = some "") ∧
    generateRecipes { text := some "" } = .ok [] :=
  ⟨Or.inr rfl, claim1_amended { text := some "" } (Or.inr rfl)⟩

/-- C2 (confirmed): for every service response whose non-empty text fails
to parse as JSON, `generateRecipes` fails (the embedded `JSON.parse`
throw) rather than returning any recipe list. -/
theorem claim2_malformed_json_fails (resp : GenerateContentResponse)
    (t : String) (htext : resp.text = some t) (hne : t ≠ "")
    (hbad : jsonParse t = none) :
    generateRecipes resp = .error .parseFailure := by
  simp [generateRecipes, htext, hne, hbad]

/-- C2, witness: the truncated text `"["` is non-empty, is rejected by the
JSON parser, and makes `generateRecipes` fail. -/
theorem claim2_witness :
    ("[" : String) ≠ "" ∧ jsonParse "[" = none ∧
    generateRecipes { text := some "[" } = .error .parseFailure :=
  ⟨by decide, rfl,
    claim2_malformed_json_fails { text := some "[" } "[" rfl (by decide) rfl⟩

/-- C3 (confirmed): a service response whose text is the literal `[]`
yields the empty candidate list, not an error. -/
theorem claim3_empty_array_ok (resp : GenerateContentResponse)
    (h : resp.text = some "[]") : generateRecipes resp = .ok [] := by
  obtain ⟨t, cand⟩ := resp
  replace h : t = some "[]" := h
  subst h
  rfl

/-- C3, witness: the theorem at the concrete `"[]"` response. -/
theorem claim3_witness :
    (({ text := some "[]" } : GenerateContentResponse).text = some "[]") ∧
    generateRecipes { text := some "[]" } = .ok [] :=
  ⟨rfl, claim3_empty_array_ok { text := some "[]" } rfl⟩

/-- C4 (confirmed): a response parsing to an n-element JSON array yields
exactly n candidates in input order; the candidate at position i is the
parsed element under the spread `{...r, id: "recipe-i"}`, whose `id`
field is exactly `recipe-i` and whose other fields (for object elements)
are unmodified. -/
theorem claim4_ids_in_order (resp : GenerateContentResponse) (t : String)
    (elems : List Json) (htext : resp.text = some t) (hne : t ≠ "")
    (hparse : jsonParse t = some (.arr elems)) :
    ∃ out, generateRecipes resp = .ok out ∧ out.length = elems.length ∧
      ∀ i r, elems[i]? = some r →
        out[i]? = some (withId r i) ∧
        getField (withId r i) "id" = some (.str ("recipe-" ++ toString i)) ∧
        ∀ fields k, r = .obj fields → k ≠ "id" →
          getField (withId r i) k = getField r k := by
  refine ⟨elems.enum.map fun p => withId p.2 p.1, ?_, by simp, ?_⟩
  · simp [generateRecipes, htext, hne, hparse]
  · intro i r hir
    refine ⟨?_, getField_withId_id r i, ?_⟩
    · simp [List.getElem?_map, List.getElem?_enum, hir]
    · intro fields k hr hk
      subst hr
      exact getField_withId_of_ne fields i k hk

/-- C4, witness: the 3-element array `[{},{},{}]` yields three candidates
with identifiers recipe-0, recipe-1, recipe-2 in input order. -/
theorem claim4_witness :
    ("[\x7b\x7d,\x7b\x7d,\x7b\x7d]" : String) ≠ "" ∧
    jsonParse "[\x7b\x7d,\x7b\x7d,\x7b\x7d]" =
      some (.arr [.obj [], .obj [], .obj []]) ∧
    (∃ out, generateRecipes { text := some "[\x7b\x7d,\x7b\x7d,\x7b\x7d]" } =
        .ok out ∧
      out.length = ([Json.obj [], Json.obj [], Json.obj []] : List Json).length ∧
      ∀ i r, ([Json.obj [], Json.obj [], Json.obj []] : List Json)[i]? = some r →
        out[i]? = some (withId r i) ∧
        getField (withId r i) "id" = some (.str ("recipe-" ++ toString i)) ∧
        ∀ fields k, r = .obj fields → k ≠ "id" →
          getField (withId r i) k = getField r k) :=
  ⟨by decide, rfl,
    claim4_ids_in_order { text := some "[\x7b\x7d,\x7b\x7d,\x7b\x7d]" }
      "[\x7b\x7d,\x7b\x7d,\x7b\x7d]" [.obj [], .obj [], .obj []]
      rfl (by decide) rfl⟩

/-- C5 (confirmed): every element of the extractor's result is non-empty,
not whitespace-only, and carries no leading or trailing whitespace (in
particular no leading or trailing space): the response text is split on
commas, each segment trimmed, and empty segments dropped. -/
theorem claim5_trimmed_ingredients (resp : GenerateContentResponse)
    (s : String) (hs : s ∈ detectIngredientsFromImage resp) :
    s ≠ "" ∧
    Option.all (fun c => !isJsWhitespace c) s.data.head? = true ∧
    Option.all (fun c => !isJsWhitespace c) s.data.getLast? = true := by
  simp only [detectIngredientsFromImage, List.mem_filter, List.mem_map] at hs
  obtain ⟨⟨u, hu, rfl⟩, hlen⟩ := hs
  have hne : jsTrim u ≠ "" := by
    intro h
    rw [h] at hlen
    simp at hlen
  rcases jsTrim_ends u with h | ⟨h1, h2⟩
  · exact absurd h hne
  · exact ⟨hne, h1, h2⟩

/-- C5, witness: the theorem at a concrete response containing padded and
empty segments. -/
theorem claim5_witness :
    ("tomato" ∈ detectIngredientsFromImage { text := some " tomato , ,egg " }) ∧
    ("tomato" : String) ≠ "" ∧
    Option.all (fun c => !isJsWhitespace c) ("tomato" : String).data.head? = true ∧
    Option.all (fun c => !isJsWhitespace c) ("tomato" : String).data.getLast? = true :=
  ⟨by decide,
    claim5_trimmed_ingredients { text := some " tomato , ,egg " } "tomato"
      (by decide)⟩

/-- C6, counterexample: a completed response with empty (or absent) text
does NOT surface a `GenerationFailure` from the extractor — the code
coerces the text with `response.text || ""` and silently returns the
empty ingredient list.  The extractor body has no failure path at all
after the service call returns. -/
theorem claim6_counterexample :
    detectIngredientsFromImage { text := some "" } = [] ∧
    detectIngredientsFromImage { text := none } = [] :=
  ⟨rfl, rfl⟩

/-- C6, amended: for every completed response whose text is empty or
absent, the extractor returns the empty ingredient list (no error); its
only failure path is the service call itself, before response handling. -/
theorem claim6_amended (resp : GenerateContentResponse)
    (h : resp.text = none ∨ resp.text = some "") :
    detectIngredientsFromImage resp = [] := by
  obtain ⟨t, cand⟩ := resp
  rcases h with h | h
  · replace h : t = none := h
    subst h
    rfl
  · replace h : t = some "" := h
    subst h
    rfl

/-- C6, witness: the amended claim at the concrete empty-text response. -/
theorem claim6_witness :
    (({ text := some "" } : GenerateContentResponse).text = none ∨
      ({ text := some "" } : GenerateContentResponse).text = some "") ∧
    detectIngredientsFromImage { text := some "" } = [] :=
  ⟨Or.inr rfl, claim6_amended { text := some "" } (Or.inr rfl)⟩

/-- C7 (confirmed): each of the four dietary modes yields a non-empty
constraint sentence, the four sentences are pairwise distinct, and every
mode string outside the enumeration takes the `default` branch and yields
the neutral "balanced" sentence. -/
theorem claim7_dietary_constraints :
    (∀ m ∈ (["STANDARD", "HIGH_PROTEIN", "KETO", "UNDER_500_CAL"] : List String),
      compileDietaryConstraint m ≠ "") ∧
    ((["STANDARD", "HIGH_PROTEIN", "KETO", "UNDER_500_CAL"] : List String).map
      compileDietaryConstraint).Nodup ∧
    (∀ m, m ∉ (["STANDARD", "HIGH_PROTEIN", "KETO", "UNDER_500_CAL"] : List String) →
      compileDietaryConstraint m = "Provide balanced and delicious recipes.") := by
  refine ⟨by decide, by decide, ?_⟩
  intro m hm
  simp only [List.mem_cons, List.not_mem_nil, or_false, not_or] at hm
  obtain ⟨h1, h2, h3, h4⟩ := hm
  simp [compileDietaryConstraint, h2, h3, h4]

/-- C7, witness: the theorem at the concrete mode `"KETO"` (inside the
enumeration) and `"VEGAN"` (outside it). -/
theorem claim7_witness :
    (("KETO" : String) ∈
        (["STANDARD", "HIGH_PROTEIN", "KETO", "UNDER_500_CAL"] : List String) ∧
      compileDietaryConstraint "KETO" ≠ "") ∧
    (("VEGAN" : String) ∉
        (["STANDARD", "HIGH_PROTEIN", "KETO", "UNDER_500_CAL"] : List String) ∧
      compileDietaryConstraint "VEGAN" = "Provide balanced and delicious recipes.") :=
  ⟨⟨by decide, claim7_dietary_constraints.1 "KETO" (by decide)⟩,
    ⟨by decide, claim7_dietary_constraints.2.2 "VEGAN" (by decide)⟩⟩

/-- C8 (confirmed): each of the six emotional styles yields a non-empty
constraint sentence, the six sentences are pairwise distinct, and every
style string outside the enumeration leaves the initial value and yields
the empty string (the constraint is silently dropped, not an error). -/
theorem claim8_style_constraints :
    (∀ e ∈ (["COMFORT", "LIGHT", "ENERGIZED", "COZY", "LAZY", "IMPRESS"] :
        List String), compileStyleConstraint e ≠ "") ∧
    ((["COMFORT", "LIGHT", "ENERGIZED", "COZY", "LAZY", "IMPRESS"] :
      List String).map compileStyleConstraint).Nodup ∧
    (∀ e, e ∉ (["COMFORT", "LIGHT", "ENERGIZED", "COZY", "LAZY", "IMPRESS"] :
        List String) → compileStyleConstraint e = "") := by
  refine ⟨by decide, by decide, ?_⟩
  intro e he
  simp only [List.mem_cons, List.not_mem_nil, or_false, not_or] at he
  obtain ⟨h1, h2, h3, h4, h5, h6⟩ := he
  simp [compileStyleConstraint, h1, h2, h3, h4, h5, h6]

/-- C8, witness: the theorem at the concrete style `"COZY"` (inside the
enumeration) and `"ANGRY"` (outside it). -/
theorem claim8_witness :
    (("COZY" : String) ∈
        (["COMFORT", "LIGHT", "ENERGIZED", "COZY", "LAZY", "IMPRESS"] :
          List String) ∧
      compileStyleConstraint "COZY" ≠ "") ∧
    (("ANGRY" : String) ∉
        (["COMFORT", "LIGHT", "ENERGIZED", "COZY", "LAZY", "IMPRESS"] :
          List String) ∧
      compileStyleConstraint "ANGRY" = "") :=
  ⟨⟨by decide, claim8_style_constraints.1 "COZY" (by decide)⟩,
    ⟨by decide, claim8_style_constraints.2.2 "ANGRY" (by decide)⟩⟩

/-- C9 (confirmed): the personalization block is empty for an absent
profile, and for any present profile it contains every entry of the
loved-patterns and disliked-patterns lists verbatim as a substring. -/
theorem claim9_personalization_block :
    compilePersonalizationBlock none = "" ∧
    ∀ p s, (s ∈ p.lovedRecipes ∨ s ∈ p.dislikedRecipes) →
      ∃ x y, compilePersonalizationBlock (some p) = x ++ s ++ y := by
  refine ⟨rfl, ?_⟩
  intro p s h
  simp only [compilePersonalizationBlock]
  rcases h with h | h
  · exact infix_append_right (infix_append_right (infix_append_right
      (infix_append_right (infix_append_right (infix_append_right
      (infix_append_right (infix_append_right (infix_append_right
      (infix_append_left _ (joinSep_substring ", " p.lovedRecipes s h))
      _) _) _) _) _) _) _) _) _
  · exact infix_append_right (infix_append_right (infix_append_right
      (infix_append_right (infix_append_right (infix_append_right
      (infix_append_right
      (infix_append_left _ (joinSep_substring ", " p.dislikedRecipes s h))
      _) _) _) _) _) _) _

/-- C9, witness: the theorem at a concrete profile; the loved entry
appears verbatim in the rendered block. -/
theorem claim9_witness :
    (("spicy ramen" : String) ∈
        (TasteProfile.mk ["spicy ramen"] ["cilantro"]
          (TastePreferences.mk "mild" [] [])).lovedRecipes ∨
      ("spicy ramen" : String) ∈
        (TasteProfile.mk ["spicy ramen"] ["cilantro"]
          (TastePreferences.mk "mild" [] [])).dislikedRecipes) ∧
    ∃ x y, compilePersonalizationBlock (some (TasteProfile.mk ["spicy ramen"]
      ["cilantro"] (TastePreferences.mk "mild" [] []))) =
      x ++ "spicy ramen" ++ y :=
  ⟨Or.inl (by simp),
    claim9_personalization_block.2
      (TasteProfile.mk ["spicy ramen"] ["cilantro"]
        (TastePreferences.mk "mild" [] []))
      "spicy ramen" (Or.inl (by simp))⟩

/-- C10, counterexample: an inline payload sitting in the SECOND response
candidate is not found — the code scans only `candidates?.[0]`, so
although an inline image exists among the response's candidate outputs
(the spec-worded all-candidates scan finds `"QUJD"`), the function
returns the placeholder URL instead of the data URI. -/
theorem claim10_counterexample :
    firstInlineDataAllCandidates
      { candidates := some [⟨some ⟨some [⟨none⟩]⟩⟩,
          ⟨some ⟨some [⟨some ⟨"QUJD"⟩⟩]⟩⟩] } = some "QUJD" ∧
    generateRecipeImage "T"
      { candidates := some [⟨some ⟨some [⟨none⟩]⟩⟩,
          ⟨some ⟨some [⟨some ⟨"QUJD"⟩⟩]⟩⟩] } =
      "https://picsum.photos/seed/T/600/600" ∧
    generateRecipeImage "T"
      { candidates := some [⟨some ⟨some [⟨none⟩]⟩⟩,
          ⟨some ⟨some [⟨some ⟨"QUJD"⟩⟩]⟩⟩] } ≠
      "data:image/png;base64,QUJD" :=
  ⟨rfl, rfl, by decide⟩

/-- C10, amended: `generateRecipeImage` scans only the FIRST candidate's
parts in order; the first inline payload found there is returned as
`data:image/png;base64,<payload>`, and if the first candidate's parts
hold no inline payload (or the candidate chain is absent) it returns the
deterministic placeholder URL seeded by the URL-encoded title, never an
error. -/
theorem claim10_amended (title : String) (resp : GenerateContentResponse) :
    (firstInlineData (firstCandidateParts resp) = none →
      generateRecipeImage title resp =
        "https://picsum.photos/seed/" ++ encodeURIComponent title ++ "/600/600") ∧
    (∀ (i : Nat) (p : Part) (d : String),
      (firstCandidateParts resp)[i]? = some p →
      p.inlineData = some ⟨d⟩ →
      (∀ (j : Nat) (q : Part), j < i →
        (firstCandidateParts resp)[j]? = some q → q.inlineData = none) →
      generateRecipeImage title resp = "data:image/png;base64," ++ d) := by
  constructor
  · intro h
    simp [generateRecipeImage, h]
  · intro i p d hi hd hbefore
    have hfirst :=
      firstInlineData_of_first (firstCandidateParts resp) i p d hi hd hbefore
    simp [generateRecipeImage, hfirst]

/-- C10, witness: the amended claim at a response whose first candidate
holds a text-only part followed by the inline payload `"QUJD"`. -/
theorem claim10_witness :
    ((firstCandidateParts
        { candidates := some [⟨some ⟨some [⟨none⟩, ⟨some ⟨"QUJD"⟩⟩]⟩⟩] })[1]? =
      some ⟨some ⟨"QUJD"⟩⟩) ∧
    generateRecipeImage "Tomato Soup"
      { candidates := some [⟨some ⟨some [⟨none⟩, ⟨some ⟨"QUJD"⟩⟩]⟩⟩] } =
      "data:image/png;base64,QUJD" := by
  refine ⟨rfl, ?_⟩
  refine (claim10_amended "Tomato Soup" _).2 1 ⟨some ⟨"QUJD"⟩⟩ "QUJD" rfl rfl ?_
  intro j q hj hq
  have hj0 : j = 0 := by omega
  subst hj0
  have h0 : (firstCandidateParts
      { candidates := some [⟨some ⟨some [⟨none⟩, ⟨some ⟨"QUJD"⟩⟩]⟩⟩] })[0]? =
      some ⟨none⟩ := rfl
  rw [h0] at hq
  cases hq
  rfl

end PureChef
